import Mathlib

/-!
Verification of the nilch search backend (`backend/main.py`).

The Python domain services are shallowly embedded:
* `SearchCache` (FIFO result cache) becomes a structure holding the entry
  list and capacity; `add`/`get` are translated statement by statement.
* `BraveClient._make_request` becomes a fold over the key pool against an
  oracle `respond : String → Option (HttpResponse β)`; `none` models a
  raised `RequestException`, mirroring the `try/except` branch.
* `InfoboxResolver` strategies become functions over the query string and
  oracles for the dictionary and encyclopedia HTTP endpoints.
* The `/api/search` handler becomes a pure function from the request
  parameters and the injected services to a response plus the new cache.

Python strings are handled as `List Char` where character-level semantics
matter (`str.replace`, `str.split`, case-insensitive matching); `Int` is
used for the page index (Python ints are unbounded).
-/

namespace Nilch

/-- One cached search entry (`CachedSearch` TypedDict): the four key
fields and the stored result payload, opaque of type `α`. -/
structure CachedSearch (α : Type) where
  query : String
  safe : String
  is_videos : Bool
  page : Int
  results : List α
  deriving Repr, DecidableEq

/-- The in-memory FIFO cache (`SearchCache.__init__`): an ordered entry
list plus the fixed capacity (Python default 20). -/
structure SearchCache (α : Type) where
  cache : List (CachedSearch α)
  capacity : Nat
  deriving Repr, DecidableEq

/-- `SearchCache.add`: append the new entry, then pop the oldest entry
(index 0) if the size is now at-or-above capacity. The Python method also
returns `search_results` unchanged; here we return the updated state, the
pass-through being the identity. -/
def SearchCache.add (c : SearchCache α) (query safe_search : String)
    (is_videos : Bool) (page : Int) (search_results : List α) :
    SearchCache α :=
  let appended := c.cache ++
    [{ query := query, safe := safe_search, is_videos := is_videos,
       page := page, results := search_results }]
  if appended.length ≥ c.capacity then
    { c with cache := appended.drop 1 }
  else
    { c with cache := appended }

/-- The membership test of `SearchCache.get`: all four key fields equal
(the Python loop `continue`s on any mismatch). -/
def CachedSearch.matches (s : CachedSearch α) (query safe_search : String)
    (is_videos : Bool) (page : Int) : Bool :=
  s.query == query && s.safe == safe_search &&
    s.is_videos == is_videos && s.page == page

/-- `SearchCache.get`: scan the entries in insertion order and return the
results of the first entry whose four key fields all match exactly;
`none` when no entry matches. -/
def SearchCache.get (c : SearchCache α) (query safe_search : String)
    (is_videos : Bool) (page : Int) : Option (List α) :=
  (c.cache.find? (fun s => s.matches query safe_search is_videos page)).map
    (fun s => s.results)

/-- A cache operation: `add` with the full entry data, or `get` with a
lookup key (the handler only ever calls these two methods). -/
inductive CacheOp (α : Type) where
  | add (query safe_search : String) (is_videos : Bool) (page : Int)
      (search_results : List α)
  | get (query safe_search : String) (is_videos : Bool) (page : Int)

/-- Run one cache operation: `add` updates the state, `get` is read-only
(the Python method only iterates). -/
def SearchCache.step (c : SearchCache α) : CacheOp α → SearchCache α
  | .add q s v p rs => c.add q s v p rs
  | .get _ _ _ _ => c

/-- Run a sequence of cache operations from a given state. -/
def SearchCache.run (c : SearchCache α) (ops : List (CacheOp α)) :
    SearchCache α :=
  ops.foldl SearchCache.step c

/-- The empty cache of a given capacity, as built by `SearchCache.__init__`. -/
def SearchCache.empty (α : Type) (capacity : Nat) : SearchCache α :=
  { cache := [], capacity := capacity }

/-- Insert a list of ready-made entries in order via `add`. -/
def SearchCache.addEntries (c : SearchCache α) (es : List (CachedSearch α)) :
    SearchCache α :=
  es.foldl (fun c e => c.add e.query e.safe e.is_videos e.page e.results) c

/-- The lookup key of an entry: the four fields `get` compares. -/
def CachedSearch.key (s : CachedSearch α) : String × String × Bool × Int :=
  (s.query, s.safe, s.is_videos, s.page)

/-- An upstream HTTP response as the code observes it: the integer status
code and the parsed JSON body (the `response.json()` value), typed `β`. -/
structure HttpResponse (β : Type) where
  status_code : Nat
  body : β
  deriving Repr, DecidableEq

/-- `BraveClient._make_request`. The network is the oracle
`respond : key → Option (HttpResponse β)`, closed over the fixed `url` and
`params` of the one call: `none` models a raised `RequestException`,
`some r` the response to the request sent with that subscription key.
Returns the keys attempted in order together with the result: per key,
a 200 response is returned at once; a 429, any other non-200 status and a
request exception all fall through to the next key (the Python loop has
no other exit); an exhausted pool yields `none`. Header copying and token
insertion are observable only through the key the oracle receives. -/
def BraveClient.make_request (respond : String → Option (HttpResponse β)) :
    List String → List String × Option (HttpResponse β)
  | [] => ([], none)
  | key :: keys =>
    match respond key with
    | some response =>
      if response.status_code = 200 then ([key], some response)
      else
        let r := BraveClient.make_request respond keys
        (key :: r.1, r.2)
    | none =>
      let r := BraveClient.make_request respond keys
      (key :: r.1, r.2)

/-- A raw web/video result item as the resolver later reads it: the
`url` and `title` keys may be absent (`.get` with default `""`). -/
structure WebItem where
  url : Option String := none
  title : Option String := none
  deriving Repr, DecidableEq

/-- The nested `web` object of a Brave web-search payload; its `results`
key may be missing (`.get("results", [])`). -/
structure BraveWeb where
  results : Option (List WebItem) := none
  deriving Repr, DecidableEq

/-- A Brave search JSON payload: `web.results` (web search) or the flat
`results` (video search); both may be missing. -/
structure BraveJson where
  web : Option BraveWeb := none
  results : Option (List WebItem) := none
  deriving Repr, DecidableEq

/-- The query parameters `BraveClient.get_web_results` sends upstream. -/
structure BraveRequest where
  result_type : String
  q : String
  safesearch : String
  count : Nat
  offset : Int
  deriving Repr, DecidableEq

/-- `BraveClient.get_web_results`: build the request (endpoint `videos`
or `web`, `count=10`, `offset=page`), issue it through `make_request`,
and on a 200 response extract the flat `results` list (videos) or the
nested `web.results` list (web), each defaulting to `[]` when missing;
otherwise `none`. -/
def BraveClient.get_web_results (api_keys : List String)
    (respond : BraveRequest → String → Option (HttpResponse BraveJson))
    (query safe_search : String) (is_videos : Bool) (page : Int) :
    Option (List WebItem) :=
  let result_type := if is_videos then "videos" else "web"
  let params : BraveRequest :=
    { result_type := result_type, q := query, safesearch := safe_search,
      count := 10, offset := page }
  match (BraveClient.make_request (respond params) api_keys).2 with
  | some response =>
    if response.status_code = 200 then
      if is_videos then some (response.body.results.getD [])
      else some ((response.body.web.getD {}).results.getD [])
    else none
  | none => none

/-- The scan of `strReplace`, structurally recursive on a fuel that
bounds the number of steps: every step consumes at least one character,
so fuel equal to the text length never runs out. -/
def strReplaceGo (old new : List Char) : Nat → List Char → List Char
  | _, [] => []
  | 0, l => l
  | fuel + 1, c :: rest =>
    if old ≠ [] ∧ old.isPrefixOf (c :: rest) then
      new ++ strReplaceGo old new fuel ((c :: rest).drop old.length)
    else
      c :: strReplaceGo old new fuel rest

/-- Python `str.replace(old, new)` on character lists: replace the
non-overlapping occurrences of `old` left to right (`old` nonempty at
every call site, as in the source). -/
def strReplace (old new l : List Char) : List Char :=
  strReplaceGo old new l.length l

/-- Python `s.split(sep)[0]` for nonempty `sep`: the text before the
first occurrence of `sep`, the whole text when `sep` does not occur. -/
def beforeFirst (sep : List Char) : List Char → List Char
  | [] => []
  | c :: rest =>
    if sep.isPrefixOf (c :: rest) then [] else c :: beforeFirst sep rest

/-- Python `sep in s` (substring containment). -/
def containsSub (sep : List Char) : List Char → Bool
  | [] => sep.isEmpty
  | c :: rest => sep.isPrefixOf (c :: rest) || containsSub sep rest

/-- Python `str.strip()`: drop whitespace from both ends. -/
def stripWs (l : List Char) : List Char :=
  ((l.dropWhile Char.isWhitespace).reverse.dropWhile Char.isWhitespace).reverse

/-- Strip a literal pattern from the front of the text, both sides
compared lower-cased (the `re.IGNORECASE` flag of the source patterns). -/
def stripPreCI : List Char → List Char → Option (List Char)
  | [], q => some q
  | _ :: _, [] => none
  | p :: ps, c :: cs =>
    if c.toLower = p.toLower then stripPreCI ps cs else none

/-- Strip a literal pattern from the end of the text, case-insensitively. -/
def stripSufCI (suf q : List Char) : Option (List Char) :=
  (stripPreCI suf.reverse q.reverse).map List.reverse

/-- The value of a nonempty all-digit run, `none` otherwise. -/
def digitsToNat (ds : List Char) : Option Nat :=
  if ds ≠ [] ∧ ds.all Char.isDigit then
    some (ds.foldl (fun a c => a * 10 + (c.toNat - 48)) 0)
  else none

/-- Python `int(str)` as the handler uses it: surrounding whitespace is
allowed, then an optional sign and a nonempty digit run; anything else
raises `ValueError`, modelled as `none` (digit-group underscores and
non-ASCII digits are outside this model; no claim touches them). -/
def strToInt (s : String) : Option Int :=
  match stripWs s.data with
  | '-' :: ds => (digitsToNat ds).map (fun n => -(n : Int))
  | '+' :: ds => (digitsToNat ds).map (fun n => (n : Int))
  | ds => (digitsToNat ds).map (fun n => (n : Int))

/-- The `InfoboxData` TypedDict (`total=False`): the `infotype` tag plus
the per-variant keys, each possibly absent. -/
structure InfoboxData where
  infotype : String
  equ : Option String := none
  result : Option String := none
  word : Option String := none
  type : Option String := none
  definition : Option String := none
  url : Option String := none
  title : Option String := none
  info : Option String := none
  deriving Repr, DecidableEq

/-- An exact rational value as an unreduced fraction of integers (the
denominator is nonzero at every construction site); kept as plain `Int`
pairs so every arithmetic step is kernel-computable. -/
structure Frac where
  num : Int
  den : Int
  deriving Repr, DecidableEq

/-- Fraction addition. -/
def Frac.add (a b : Frac) : Frac :=
  { num := a.num * b.den + b.num * a.den, den := a.den * b.den }

/-- Fraction subtraction. -/
def Frac.sub (a b : Frac) : Frac :=
  { num := a.num * b.den - b.num * a.den, den := a.den * b.den }

/-- Fraction multiplication. -/
def Frac.mul (a b : Frac) : Frac :=
  { num := a.num * b.num, den := a.den * b.den }

/-- Fraction division (the caller guards a zero divisor). -/
def Frac.div (a b : Frac) : Frac :=
  { num := a.num * b.den, den := a.den * b.num }

/-- Fraction negation. -/
def Frac.neg (a : Frac) : Frac :=
  { num := -a.num, den := a.den }

/-- Whether the fraction is an integer: the denominator divides the
numerator. -/
def Frac.isInt (a : Frac) : Bool :=
  a.num.tmod a.den = 0

/-- The integer value of an integral fraction. -/
def Frac.toInt (a : Frac) : Int :=
  a.num.tdiv a.den

/-- An integer to a natural power, by repeated multiplication. -/
def intPow (v : Int) : Nat → Int
  | 0 => 1
  | n + 1 => v * intPow v n

/-- A fraction to an integer power; a negative exponent inverts (the
caller excludes a zero base there). -/
def Frac.pow (a : Frac) (e : Int) : Frac :=
  match e with
  | Int.ofNat n => { num := intPow a.num n, den := intPow a.den n }
  | Int.negSucc n =>
    { num := intPow a.den (n + 1), den := intPow a.num (n + 1) }

/-- A token of the arithmetic sub-language the cleaned expression is
written in: a literal number, the five operators or a parenthesis. -/
inductive MathTok where
  | num (v : Frac)
  | plus
  | minus
  | star
  | slash
  | dstar
  | lpar
  | rpar
  deriving Repr, DecidableEq

/-- A lexed character before digit runs are merged: an operator or
parenthesis, one digit-or-dot character, or a whitespace break. -/
inductive RawTok where
  | op (t : MathTok)
  | dd (c : Char)
  | ws
  deriving Repr, DecidableEq

/-- Modelled from the spec: the lexer of the restricted arithmetic
evaluator standing in for the Python builtin `eval` (external to the
repository), which the spec directs to be "a small dedicated
arithmetic-expression parser/evaluator supporting +, -, *, /, ^ (power),
parentheses, and decimal numbers only, rejecting anything else as a
parse failure". Adjacent `**` lexes as the power operator; any other
character is a failure (Python `SyntaxError` or `NameError`). -/
def tokenizeRaw : List Char → Option (List RawTok)
  | [] => some []
  | '*' :: '*' :: cs => (tokenizeRaw cs).map (RawTok.op MathTok.dstar :: ·)
  | c :: cs =>
    if c = ' ' then (tokenizeRaw cs).map (RawTok.ws :: ·)
    else if c = '+' then (tokenizeRaw cs).map (RawTok.op MathTok.plus :: ·)
    else if c = '-' then (tokenizeRaw cs).map (RawTok.op MathTok.minus :: ·)
    else if c = '*' then (tokenizeRaw cs).map (RawTok.op MathTok.star :: ·)
    else if c = '/' then (tokenizeRaw cs).map (RawTok.op MathTok.slash :: ·)
    else if c = '(' then (tokenizeRaw cs).map (RawTok.op MathTok.lpar :: ·)
    else if c = ')' then (tokenizeRaw cs).map (RawTok.op MathTok.rpar :: ·)
    else if c.isDigit || c = '.' then (tokenizeRaw cs).map (RawTok.dd c :: ·)
    else none

/-- The rational value of one lexed number: digits with at most one
decimal point and at least one digit (`"12.5"`, `"2."`, `".5"`). -/
def numOfChars (ds : List Char) : Option Frac :=
  let intPart := ds.takeWhile (fun c => c ≠ '.')
  let rest := ds.dropWhile (fun c => c ≠ '.')
  let frac := rest.drop 1
  if intPart.all Char.isDigit ∧ frac.all Char.isDigit ∧
      (intPart ≠ [] ∨ frac ≠ []) then
    (digitsToNat (intPart ++ frac)).map
      (fun n => { num := Int.ofNat n, den := Int.ofNat (10 ^ frac.length) })
  else none

/-- Merge maximal digit runs into number tokens; `acc` holds the pending
run reversed. A whitespace break ends a run, so `"2 2"` stays two number
tokens (a parse failure later), as in Python. -/
def groupNums (acc : List Char) : List RawTok → Option (List MathTok)
  | [] =>
    if acc = [] then some []
    else (numOfChars acc.reverse).map (fun v => [MathTok.num v])
  | RawTok.dd c :: rest => groupNums (c :: acc) rest
  | RawTok.ws :: rest =>
    if acc = [] then groupNums [] rest
    else
      match numOfChars acc.reverse, groupNums [] rest with
      | some v, some ts => some (MathTok.num v :: ts)
      | _, _ => none
  | RawTok.op t :: rest =>
    if acc = [] then (groupNums [] rest).map (t :: ·)
    else
      match numOfChars acc.reverse, groupNums [] rest with
      | some v, some ts => some (MathTok.num v :: t :: ts)
      | _, _ => none

mutual

/-- Expression layer: terms combined by `+` and `-`. The `Nat` fuel
bounds the recursion depth; the driver passes more than the parse can
consume, so exhaustion never fires on a well-formed token list. -/
def parseExpr : Nat → List MathTok → Option (Frac × List MathTok)
  | 0, _ => none
  | fuel + 1, ts =>
    match parseTerm fuel ts with
    | some (v, ts) => parseExprRest fuel v ts
    | none => none

def parseExprRest : Nat → Frac → List MathTok → Option (Frac × List MathTok)
  | 0, _, _ => none
  | fuel + 1, v, MathTok.plus :: ts =>
    match parseTerm fuel ts with
    | some (w, ts) => parseExprRest fuel (Frac.add v w) ts
    | none => none
  | fuel + 1, v, MathTok.minus :: ts =>
    match parseTerm fuel ts with
    | some (w, ts) => parseExprRest fuel (Frac.sub v w) ts
    | none => none
  | _ + 1, v, ts => some (v, ts)

/-- Term layer: signed power-factors combined by `*` and `/`; division
by zero is an evaluation failure (Python `ZeroDivisionError`). -/
def parseTerm : Nat → List MathTok → Option (Frac × List MathTok)
  | 0, _ => none
  | fuel + 1, ts =>
    match parseUnary fuel ts with
    | some (v, ts) => parseTermRest fuel v ts
    | none => none

def parseTermRest : Nat → Frac → List MathTok → Option (Frac × List MathTok)
  | 0, _, _ => none
  | fuel + 1, v, MathTok.star :: ts =>
    match parseUnary fuel ts with
    | some (w, ts) => parseTermRest fuel (Frac.mul v w) ts
    | none => none
  | fuel + 1, v, MathTok.slash :: ts =>
    match parseUnary fuel ts with
    | some (w, ts) =>
      if w.num = 0 then none else parseTermRest fuel (Frac.div v w) ts
    | none => none
  | _ + 1, v, ts => some (v, ts)

/-- Unary layer: `-`/`+` prefixes, binding looser than power
(`-2**2 = -(2**2)`, as in Python). -/
def parseUnary : Nat → List MathTok → Option (Frac × List MathTok)
  | 0, _ => none
  | fuel + 1, MathTok.minus :: ts =>
    match parseUnary fuel ts with
    | some (v, ts) => some (Frac.neg v, ts)
    | none => none
  | fuel + 1, MathTok.plus :: ts => parseUnary fuel ts
  | fuel + 1, ts => parsePow fuel ts

/-- Power layer: an atom raised by `**` to a (possibly signed) exponent,
right-associative. The exponent must be an integer and `0` admits no
negative exponent; a fractional exponent is a failure in this model
(Python would move to floating point there, outside this model's scope). -/
def parsePow : Nat → List MathTok → Option (Frac × List MathTok)
  | 0, _ => none
  | fuel + 1, ts =>
    match parseAtom fuel ts with
    | some (v, MathTok.dstar :: ts) =>
      match parseUnary fuel ts with
      | some (e, ts) =>
        if e.isInt then
          if v.num = 0 ∧ e.toInt < 0 then none
          else some (Frac.pow v e.toInt, ts)
        else none
      | none => none
    | some (v, ts) => some (v, ts)
    | none => none

/-- Atom layer: a number literal or a parenthesised expression. -/
def parseAtom : Nat → List MathTok → Option (Frac × List MathTok)
  | 0, _ => none
  | fuel + 1, MathTok.num v :: ts => some (v, ts)
  | fuel + 1, MathTok.lpar :: ts =>
    match parseExpr fuel ts with
    | some (v, MathTok.rpar :: ts) => some (v, ts)
    | _ => none
  | _ + 1, _ => none

end

/-- Modelled from the spec: the restricted arithmetic evaluator standing
in for Python's builtin `eval` with empty globals (external to the
repository; the spec: "evaluate the resulting arithmetic expression using
a restricted evaluator with no access to names or builtins ... only
numeric arithmetic is permitted"). Lex, merge numbers, parse with fuel
ample for the token count, and demand that the whole token list is
consumed; every failure (`SyntaxError`, `ZeroDivisionError`, `NameError`,
`TypeError`, `ValueError`) is `none`. Values are exact rationals. -/
def evalArith (cs : List Char) : Option Frac :=
  match tokenizeRaw cs with
  | none => none
  | some raw =>
    match groupNums [] raw with
    | none => none
    | some toks =>
      match parseExpr (5 * toks.length + 5) toks with
      | some (v, []) => some v
      | _ => none

/-- `str(value)` for the evaluator's result: an integer prints without a
denominator (`"6"`), matching Python's `str(int)`; a non-integer value
prints in reduced fraction form (Python would print a float there; no
claim depends on that case). -/
def ratToStr (v : Frac) : String :=
  if v.isInt then toString v.toInt
  else
    let g := Nat.gcd v.num.natAbs v.den.natAbs
    let n := v.num.natAbs / g
    let d := v.den.natAbs / g
    (if (v.num < 0) ≠ (v.den < 0) then "-" else "") ++
      toString n ++ "/" ++ toString d

/-- The character class of `expr_pattern`: plus, minus, slash, star,
the two characters U+0E23 and U+0E17 (the source file stores the
division-sign alias as this two-character sequence), `x`, parentheses,
digits, dot, caret and space, under `re.IGNORECASE` (the only cased
letter in the class is `x`, so `X` matches too). -/
def isExprChar (c : Char) : Bool :=
  c = '+' || c = '-' || c = '/' || c = '*' || c = 'ร' || c = 'ท' ||
    c.toLower = 'x' || c = '(' || c = ')' || c.isDigit || c = '.' ||
    c = '^' || c = ' '

/-- The `maths_patterns` templates of `_solve_math`, each as the literal
text before and after the `(expr_pattern)` group: `what is <e>`,
`solve <e>`, `calc <e>`, `calculate <e>`, `<e>`, `<e>=`. -/
def maths_templates : List (List Char × List Char) :=
  [("what is ".data, []), ("solve ".data, []), ("calc ".data, []),
   ("calculate ".data, []), ([], []), ([], ['='])]

/-- `re.match(pattern, query, re.IGNORECASE)` for one template: the
literal prefix and suffix match case-insensitively and the full
remainder, which must be nonempty, is the group, every character in the
expression class. -/
def matchTemplate (pre suf q : List Char) : Option (List Char) :=
  match stripPreCI pre q with
  | none => none
  | some q1 =>
    match stripSufCI suf q1 with
    | none => none
    | some mid =>
      if mid ≠ [] ∧ mid.all isExprChar then some mid else none

/-- The `for pattern in maths_patterns` loop: the group of the first
matching template, `none` when no template matches. -/
def matchTemplates : List (List Char × List Char) → List Char →
    Option (List Char)
  | [], _ => none
  | (pre, suf) :: rest, q =>
    match matchTemplate pre suf q with
    | some mid => some mid
    | none => matchTemplates rest q

/-- The operator normalization of `_solve_math`: `equ.replace("x", "*")`,
then the replacement of the two-character sequence U+0E23 U+0E17 (the
source literal for the division-sign alias) by `"/"`, then
`.replace("^", "**")` — note the replacements are literal and
case-sensitive (an upper-case `X` is left in place). -/
def equCleaned (equ : List Char) : List Char :=
  strReplace ['^'] ['*', '*'] (strReplace ['ร', 'ท'] ['/']
    (strReplace ['x'] ['*'] equ))

/-- `InfoboxResolver._solve_math`: match the query against the templates
in order; on the first match, strip the group, normalize the operator
aliases and evaluate; a successful evaluation yields the `calc` infobox
with the cleaned equation and stringified result, an evaluation failure
yields `none` at once (the `except` clause returns from the function, so
no later template is tried). -/
def solve_math (query : String) : Option InfoboxData :=
  match matchTemplates maths_templates query.data with
  | none => none
  | some mid =>
    let equ := stripWs mid
    let equ_clean := equCleaned equ
    match evalArith equ_clean with
    | some v =>
      some { infotype := "calc", equ := some (⟨equ_clean⟩ : String),
             result := some (ratToStr v) }
    | none => none

/-- One definition object of the dictionary payload: its `definition`
key may be missing (or empty, which the code treats as missing). -/
structure DefItem where
  definition : Option String := none
  deriving Repr, DecidableEq

/-- One entry of the `en` list of the dictionary payload. -/
structure DefEntry where
  partOfSpeech : Option String := none
  definitions : Option (List DefItem) := none
  deriving Repr, DecidableEq

/-- The dictionary JSON payload: the `en` key may be missing. -/
structure DefData where
  en : Option (List DefEntry) := none
  deriving Repr, DecidableEq

/-- The word-extraction step of `_get_definition`: the query against
`^what does ([a-zA-Z]+) mean$`, then `^define ([a-zA-Z]+)$`, both
case-insensitive; the group is one or more ASCII letters, kept in its
original case. -/
def definition_word (q : List Char) : Option (List Char) :=
  let matchWord : List Char → List Char → Option (List Char) :=
    fun pre suf =>
      match stripPreCI pre q with
      | none => none
      | some q1 =>
        match stripSufCI suf q1 with
        | none => none
        | some mid =>
          if mid ≠ [] ∧ mid.all (fun c => c.isAlpha) then some mid
          else none
  match matchWord "what does ".data " mean".data with
  | some w => some w
  | none => matchWord "define ".data []

/-- `InfoboxResolver._get_definition`. The dictionary service is the
oracle `defRespond : word → Option (HttpResponse DefData)` (`none` is a
raised `RequestException`; the request URL embeds exactly the word). On
a 200 response with a nonempty `en` list, the first entry's first
non-empty definition text (if any) and part-of-speech build the
`definition` infobox; a non-200 status, a transport error, or a missing
or empty `en` list yield `none`. -/
def get_definition (defRespond : String → Option (HttpResponse DefData))
    (query : String) : Option InfoboxData :=
  match definition_word query.data with
  | none => none
  | some wchars =>
    let word : String := ⟨wchars⟩
    match defRespond word with
    | none => none
    | some resp =>
      if resp.status_code ≠ 200 then none
      else
        match resp.body.en with
        | some (first :: _) =>
          let found := (first.definitions.getD []).find?
            (fun d => d.definition.getD "" != "")
          some { word := some word, type := first.partOfSpeech,
                 definition := found.bind (fun d => d.definition),
                 url := some ("https://en.wiktionary.org/wiki/" ++ word),
                 infotype := "definition" }
        | _ => none

/-- The `desktop` object of a Wikipedia summary's `content_urls`. -/
structure WikiDesktop where
  page : Option String := none
  deriving Repr, DecidableEq

/-- The `content_urls` object of a Wikipedia summary. -/
structure WikiContentUrls where
  desktop : Option WikiDesktop := none
  deriving Repr, DecidableEq

/-- A Wikipedia summary JSON payload as `_get_wikipedia_summary` reads
it. -/
structure WikiSummary where
  title : Option String := none
  extract : Option String := none
  content_urls : Option WikiContentUrls := none
  deriving Repr, DecidableEq

/-- The separator `" - Wikipedia"` the title derivation splits on. -/
def wiki_sep : List Char := " - Wikipedia".data

/-- The page-title derivation of `_get_wikipedia_summary`:
`title.split(" - Wikipedia")[0].replace(" ", "_")` — the text before the
first occurrence of the separator, spaces replaced by underscores. -/
def formatted_title (title : String) : String :=
  ⟨strReplace [' '] ['_'] (beforeFirst wiki_sep title.data)⟩

/-- The title derivation as the spec's sentence describes it: remove one
trailing `" - Wikipedia"` suffix (only a trailing one), then replace
spaces by underscores. Stated for comparison with `formatted_title`. -/
def spec_trailing_title (title : String) : String :=
  let t := title.data
  let stripped :=
    if wiki_sep.isSuffixOf t then t.take (t.length - wiki_sep.length) else t
  ⟨strReplace [' '] ['_'] stripped⟩

/-- The scan loop of `_get_wikipedia_summary` over the (at most 3)
candidate items. The encyclopedia service is the oracle
`wikiRespond : formatted title → Option (HttpResponse WikiSummary)`
(`none` is a raised `RequestException`). An item whose URL does not
contain `"wikipedia.org"` is skipped; for a candidate, a transport error
or non-200 status continues the scan; a 200 response builds the
`wikipedia` infobox from `title`, `extract` and the
`content_urls.desktop.page` chain, each defaulting when missing. -/
def wikipedia_scan
    (wikiRespond : String → Option (HttpResponse WikiSummary)) :
    List WebItem → Option InfoboxData
  | [] => none
  | item :: rest =>
    if containsSub "wikipedia.org".data (item.url.getD "").data then
      let ft := formatted_title (item.title.getD "")
      match wikiRespond ft with
      | none => wikipedia_scan wikiRespond rest
      | some resp =>
        if resp.status_code ≠ 200 then wikipedia_scan wikiRespond rest
        else
          some { title := resp.body.title, info := resp.body.extract,
                 url := ((resp.body.content_urls.getD {}).desktop.getD
                   {}).page,
                 infotype := "wikipedia" }
    else wikipedia_scan wikiRespond rest

/-- `InfoboxResolver._get_wikipedia_summary`: scan the first
`min(3, len)` results. -/
def get_wikipedia_summary
    (wikiRespond : String → Option (HttpResponse WikiSummary))
    (web_results : List WebItem) : Option InfoboxData :=
  wikipedia_scan wikiRespond (web_results.take 3)

/-- The formatted titles `_get_wikipedia_summary` requests a summary
for, in order: same loop as `wikipedia_scan`, recording the title of
every request issued (the scan stops recording after a 200 response
ends the loop). -/
def wikipedia_requests_scan
    (wikiRespond : String → Option (HttpResponse WikiSummary)) :
    List WebItem → List String
  | [] => []
  | item :: rest =>
    if containsSub "wikipedia.org".data (item.url.getD "").data then
      let ft := formatted_title (item.title.getD "")
      match wikiRespond ft with
      | none => ft :: wikipedia_requests_scan wikiRespond rest
      | some resp =>
        if resp.status_code ≠ 200 then
          ft :: wikipedia_requests_scan wikiRespond rest
        else [ft]
    else wikipedia_requests_scan wikiRespond rest

/-- The request trace of `_get_wikipedia_summary` on the first
`min(3, len)` results. -/
def wikipedia_requests
    (wikiRespond : String → Option (HttpResponse WikiSummary))
    (web_results : List WebItem) : List String :=
  wikipedia_requests_scan wikiRespond (web_results.take 3)

/-- `InfoboxResolver.get_infobox`: the arithmetic strategy first, then
the definition strategy, then the Wikipedia fallback; the first
non-`none` result is returned as-is (a returned dict is always nonempty,
so Python's truthiness test is exactly non-`None` here). -/
def get_infobox (defRespond : String → Option (HttpResponse DefData))
    (wikiRespond : String → Option (HttpResponse WikiSummary))
    (web_results : List WebItem) (query : String) : Option InfoboxData :=
  match solve_math query with
  | some math_result => some math_result
  | none =>
    match get_definition defRespond query with
    | some def_result => some def_result
    | none => get_wikipedia_summary wikiRespond web_results

/-- The `infobox` field of a normal `/api/search` payload: the resolved
infobox, or the literal string `"null"` the handler substitutes for
`None` (a legacy contract with the frontend). -/
inductive FinalInfobox where
  | box (d : InfoboxData)
  | nullLiteral
  deriving Repr, DecidableEq

/-- A `/api/search` response: the `"noquery"` sentinel, the
`"noresults"` sentinel, or the normal `{infobox, results}` payload. -/
inductive SearchResponse where
  | noquery
  | noresults
  | payload (infobox : FinalInfobox) (results_list : List WebItem)
  deriving Repr, DecidableEq

/-- The `page` parameter handling of the handler:
`int(page_arg) if page_arg is not None else 0`, a `ValueError` falling
back to 0. -/
def page_of_arg : Option String → Int
  | none => 0
  | some s => (strToInt s).getD 0

/-- The infobox assembly at the end of the handler: for a video search
the resolver is not called and the field is the `"null"` literal;
otherwise the resolved infobox, or `"null"` when the resolver yields
none. -/
def final_infobox (defRespond : String → Option (HttpResponse DefData))
    (wikiRespond : String → Option (HttpResponse WikiSummary))
    (is_videos : Bool) (results_list : List WebItem) (query : String) :
    FinalInfobox :=
  if is_videos then FinalInfobox.nullLiteral
  else
    match get_infobox defRespond wikiRespond results_list query with
    | some d => FinalInfobox.box d
    | none => FinalInfobox.nullLiteral

/-- The `/api/search` handler `results`, over the injected services: the
cache state, the key pool with the Brave network oracle, and the two
resolver oracles. Returns the response and the new cache state. Missing
`q` is the `"noquery"` sentinel; `safe` defaults to `"strict"`; `videos`
is true exactly on the literal `"true"`; then the cache is consulted, a
miss fetches upstream, a `none` fetch is the `"noresults"` sentinel and
a successful fetch is cached; the infobox is resolved only for non-video
searches. -/
def results_handler (cache : SearchCache WebItem) (api_keys : List String)
    (braveRespond : BraveRequest → String → Option (HttpResponse BraveJson))
    (defRespond : String → Option (HttpResponse DefData))
    (wikiRespond : String → Option (HttpResponse WikiSummary))
    (q safe_arg videos_arg page_arg : Option String) :
    SearchResponse × SearchCache WebItem :=
  match q with
  | none => (SearchResponse.noquery, cache)
  | some query =>
    let safe_search := safe_arg.getD "strict"
    let is_videos := videos_arg == some "true"
    let page := page_of_arg page_arg
    match cache.get query safe_search is_videos page with
    | some cached_results =>
      (SearchResponse.payload
        (final_infobox defRespond wikiRespond is_videos cached_results
          query) cached_results, cache)
    | none =>
      match BraveClient.get_web_results api_keys braveRespond query
          safe_search is_videos page with
      | some fetched_results =>
        (SearchResponse.payload
          (final_infobox defRespond wikiRespond is_videos fetched_results
            query) fetched_results,
         cache.add query safe_search is_videos page fetched_results)
      | none => (SearchResponse.noresults, cache)

theorem CachedSearch.matches_iff (s : CachedSearch α) (q sf : String)
    (v : Bool) (p : Int) :
    s.matches q sf v p = true ↔ s.key = (q, sf, v, p) := by
  simp [CachedSearch.matches, CachedSearch.key, Prod.ext_iff,
    and_assoc]

theorem SearchCache.add_capacity (c : SearchCache α) (q sf : String)
    (v : Bool) (p : Int) (rs : List α) :
    (c.add q sf v p rs).capacity = c.capacity := by
  unfold SearchCache.add
  dsimp only
  split <;> rfl

theorem SearchCache.addEntries_capacity (c : SearchCache α)
    (es : List (CachedSearch α)) :
    (c.addEntries es).capacity = c.capacity := by
  induction es generalizing c with
  | nil => rfl
  | cons e es ih =>
    simpa [SearchCache.addEntries, List.foldl_cons, SearchCache.add_capacity]
      using ih (c.add e.query e.safe e.is_videos e.page e.results)

theorem SearchCache.addEntries_append (c : SearchCache α)
    (es : List (CachedSearch α)) (e : CachedSearch α) :
    c.addEntries (es ++ [e]) =
      (c.addEntries es).add e.query e.safe e.is_videos e.page e.results := by
  simp [SearchCache.addEntries, List.foldl_append]

/-- The cache contents after inserting `es` into the empty capacity-`C`
cache: only the last `C - 1` entries remain (the `≥` eviction test pops
already when the size reaches capacity). -/
theorem SearchCache.addEntries_empty_cache (C : Nat)
    (es : List (CachedSearch α)) :
    ((SearchCache.empty α C).addEntries es).cache =
      es.drop (es.length + 1 - C) := by
  induction es using List.reverseRecOn with
  | nil => simp [SearchCache.addEntries, SearchCache.empty]
  | append_singleton es e ih =>
    rw [SearchCache.addEntries_append, SearchCache.add]
    have hcap : ((SearchCache.empty α C).addEntries es).capacity = C := by
      rw [SearchCache.addEntries_capacity]; rfl
    have heta : (⟨e.query, e.safe, e.is_videos, e.page, e.results⟩ :
        CachedSearch α) = e := rfl
    rw [ih, hcap, heta]
    have hlen_app : (es ++ [e]).length = es.length + 1 := by simp
    rw [hlen_app]
    have hdroplen : (es.drop (es.length + 1 - C)).length =
        es.length - (es.length + 1 - C) := List.length_drop _ _
    by_cases hge : (es.drop (es.length + 1 - C) ++ [e]).length ≥ C
    · rw [if_pos hge]
      show (es.drop (es.length + 1 - C) ++ [e]).drop 1 =
        (es ++ [e]).drop (es.length + 1 + 1 - C)
      have hge' : C ≤ es.length + 1 := by
        simp only [List.length_append, hdroplen, List.length_singleton] at hge
        omega
      by_cases hl : es.length + 1 - C < es.length
      · have hone : (1 : Nat) ≤ (es.drop (es.length + 1 - C)).length := by
          rw [hdroplen]; omega
        rw [List.drop_append_of_le_length hone, List.drop_drop,
          List.drop_append_of_le_length (show es.length + 1 + 1 - C ≤
            es.length by omega)]
        have harith : es.length + 1 - C + 1 = es.length + 1 + 1 - C := by
          omega
        rw [harith]
      · have hdrop_nil : es.drop (es.length + 1 - C) = [] :=
          List.drop_eq_nil_of_le (by omega)
        have hrhs : (es ++ [e]).drop (es.length + 1 + 1 - C) = [] :=
          List.drop_eq_nil_of_le (by rw [hlen_app]; omega)
        rw [hdrop_nil, hrhs]
        rfl
    · rw [if_neg hge]
      show es.drop (es.length + 1 - C) ++ [e] =
        (es ++ [e]).drop (es.length + 1 + 1 - C)
      simp only [List.length_append, hdroplen, List.length_singleton] at hge
      have h0 : es.length + 1 - C = 0 := by omega
      have h0' : es.length + 1 + 1 - C = 0 := by omega
      rw [h0, h0']
      rfl

/-- When the keys in the cache list are distinct, `get` finds exactly the
stored entry with the requested key. -/
theorem find_matches_of_mem (l : List (CachedSearch α))
    (hnodup : (l.map CachedSearch.key).Nodup) (e : CachedSearch α)
    (he : e ∈ l) :
    l.find? (fun s => s.matches e.query e.safe e.is_videos e.page) =
      some e := by
  induction l with
  | nil => cases he
  | cons h t ih =>
    simp only [List.map_cons, List.nodup_cons] at hnodup
    rcases List.mem_cons.mp he with rfl | hmem
    · rw [List.find?_cons_of_pos]
      rw [CachedSearch.matches_iff]
      rfl
    · have hkey_ne : h.key ≠ e.key := by
        intro hk
        exact hnodup.1 (hk ▸ List.mem_map_of_mem CachedSearch.key hmem)
      rw [List.find?_cons_of_neg, ih hnodup.2 hmem]
      simp only [CachedSearch.matches_iff]
      intro hk
      exact hkey_ne (by simpa [CachedSearch.key, Prod.ext_iff] using hk)

/-- When no entry in the cache list carries the requested key, `get`
misses. -/
theorem find_matches_of_not_mem (l : List (CachedSearch α))
    (k : String × String × Bool × Int)
    (hk : k ∉ l.map CachedSearch.key) :
    l.find? (fun s => s.matches k.1 k.2.1 k.2.2.1 k.2.2.2) = none := by
  induction l with
  | nil => rfl
  | cons h t ih =>
    simp only [List.map_cons, List.mem_cons, not_or] at hk
    rw [List.find?_cons_of_neg, ih hk.2]
    simp only [CachedSearch.matches_iff]
    intro hkey
    exact hk.1 (by rw [hkey])

theorem SearchCache.step_capacity (c : SearchCache α) (op : CacheOp α) :
    (c.step op).capacity = c.capacity := by
  cases op with
  | add q s v p rs => exact SearchCache.add_capacity c q s v p rs
  | get q s v p => rfl

theorem SearchCache.step_length (c : SearchCache α) (op : CacheOp α)
    (h : c.cache.length ≤ c.capacity - 1) :
    (c.step op).cache.length ≤ c.capacity - 1 := by
  cases op with
  | get q s v p => exact h
  | add q s v p rs =>
    show (c.add q s v p rs).cache.length ≤ c.capacity - 1
    unfold SearchCache.add
    dsimp only
    split
    · simp only [List.length_drop, List.length_append, List.length_singleton]
      omega
    · rename_i hcond
      simp only [ge_iff_le, not_le, List.length_append,
        List.length_singleton] at hcond
      simp only [List.length_append, List.length_singleton]
      omega

/-- Items whose URL does not contain `"wikipedia.org"` are skipped
without a request. -/
theorem wikipedia_requests_scan_skip
    (wikiRespond : String → Option (HttpResponse WikiSummary))
    (pre l : List WebItem)
    (hpre : ∀ it ∈ pre,
      containsSub "wikipedia.org".data (it.url.getD "").data = false) :
    wikipedia_requests_scan wikiRespond (pre ++ l) =
      wikipedia_requests_scan wikiRespond l := by
  induction pre with
  | nil => rfl
  | cons it pre ih =>
    have hit := hpre it (List.mem_cons_self _ _)
    rw [List.cons_append, wikipedia_requests_scan]
    rw [hit]
    simp only [Bool.false_eq_true, if_false]
    exact ih (fun x hx => hpre x (List.mem_cons_of_mem _ hx))

/-- The first candidate item determines the first requested title. -/
theorem wikipedia_requests_scan_head
    (wikiRespond : String → Option (HttpResponse WikiSummary))
    (item : WebItem) (l : List WebItem)
    (hitem : containsSub "wikipedia.org".data (item.url.getD "").data =
      true) :
    (wikipedia_requests_scan wikiRespond (item :: l)).head? =
      some (formatted_title (item.title.getD "")) := by
  rw [wikipedia_requests_scan, hitem]
  simp only [if_true]
  cases wikiRespond (formatted_title (item.title.getD "")) with
  | none => rfl
  | some resp =>
    by_cases hs : resp.status_code ≠ 200 <;> simp [hs]

theorem SearchCache.run_length (c : SearchCache α) (ops : List (CacheOp α))
    (h : c.cache.length ≤ c.capacity - 1) :
    (c.run ops).cache.length ≤ (c.run ops).capacity - 1 ∧
      (c.run ops).capacity = c.capacity := by
  induction ops generalizing c with
  | nil => exact ⟨h, rfl⟩
  | cons op ops ih =>
    have hstep := SearchCache.step_length c op h
    rw [← SearchCache.step_capacity c op] at hstep
    have hrec := ih (c.step op) hstep
    refine ⟨hrec.1, ?_⟩
    show ((c.step op).run ops).capacity = c.capacity
    rw [hrec.2, SearchCache.step_capacity]

end Nilch

namespace Nilch

section Claims

/-- **C9.** After every sequence of `add`/`get` operations on a
`SearchCache` built with capacity `C ≥ 1`, the number of stored entries is
at most `C - 1`: `add` pops the oldest entry as soon as the size reaches
capacity, so the cache never holds `C` entries at once. -/
theorem C9_size_at_most_capacity_minus_one (α : Type) (C : Nat)
    (hC : 1 ≤ C) (ops : List (CacheOp α)) :
    ((SearchCache.empty α C).run ops).cache.length ≤ C - 1 := by
  have h := SearchCache.run_length (SearchCache.empty α C) ops
    (by simp [SearchCache.empty])
  have hcap : ((SearchCache.empty α C).run ops).capacity = C := h.2
  calc ((SearchCache.empty α C).run ops).cache.length
      ≤ ((SearchCache.empty α C).run ops).capacity - 1 := h.1
    _ = C - 1 := by rw [hcap]

/-- Witness for C9: three adds and a get on a capacity-2 cache leave at
most one entry stored. -/
theorem C9_size_at_most_capacity_minus_one_witness :
    ((SearchCache.empty Nat 2).run
      [CacheOp.add "q1" "strict" false 0 [1],
       CacheOp.add "q2" "strict" false 0 [2],
       CacheOp.get "q1" "strict" false 0,
       CacheOp.add "q3" "strict" false 0 [3]]).cache.length ≤ 2 - 1 :=
  C9_size_at_most_capacity_minus_one Nat 2 (by decide)
    [CacheOp.add "q1" "strict" false 0 [1],
     CacheOp.add "q2" "strict" false 0 [2],
     CacheOp.get "q1" "strict" false 0,
     CacheOp.add "q3" "strict" false 0 [3]]

/-- **C1 (counterexample).** The claim predicts that inserting `C + 1`
distinct keys into a capacity-`C` cache leaves the 2nd-inserted entry
retrievable. At `C = 2`, after inserting `q1`, `q2`, `q3`, the lookup of
`q2` misses (the `≥` test in `add` evicts already when the size reaches
capacity, so the cache holds at most `C - 1` entries). -/
theorem C1_second_entry_also_evicted :
    ((((SearchCache.empty Nat 2).add "q1" "strict" false 0 [1]).add
        "q2" "strict" false 0 [2]).add "q3" "strict" false 0 [3]).get
      "q2" "strict" false 0 = none ∧
    ((((SearchCache.empty Nat 2).add "q1" "strict" false 0 [1]).add
        "q2" "strict" false 0 [2]).add "q3" "strict" false 0 [3]).get
      "q3" "strict" false 0 = some [3] := by
  exact ⟨rfl, rfl⟩

/-- **C1 (amended).** For every capacity `C ≥ 2`, inserting `C + 1`
entries with pairwise-distinct keys into the empty capacity-`C` cache
leaves the entries inserted 3rd through `(C+1)`th retrievable via `get`,
while the 1st- and 2nd-inserted keys miss: the `≥` eviction test in `add`
keeps at most `C - 1` entries, so each insertion from the `C`th onward
evicts the then-oldest entry. -/
theorem C1_fifo_eviction_amended {α : Type} (C : Nat) (hC : 2 ≤ C)
    (e1 e2 : CachedSearch α) (rest : List (CachedSearch α))
    (hlen : (e1 :: e2 :: rest).length = C + 1)
    (hkeys : ((e1 :: e2 :: rest).map CachedSearch.key).Nodup) :
    (∀ e ∈ rest,
      ((SearchCache.empty α C).addEntries (e1 :: e2 :: rest)).get
        e.query e.safe e.is_videos e.page = some e.results) ∧
    ((SearchCache.empty α C).addEntries (e1 :: e2 :: rest)).get
      e1.query e1.safe e1.is_videos e1.page = none ∧
    ((SearchCache.empty α C).addEntries (e1 :: e2 :: rest)).get
      e2.query e2.safe e2.is_videos e2.page = none := by
  have hcache :
      ((SearchCache.empty α C).addEntries (e1 :: e2 :: rest)).cache =
        rest := by
    rw [SearchCache.addEntries_empty_cache]
    have h2 : (e1 :: e2 :: rest).length + 1 - C = 2 := by
      simp only [List.length_cons] at hlen ⊢
      omega
    rw [h2]
    rfl
  simp only [List.map_cons, List.nodup_cons, List.mem_cons,
    List.mem_map, not_or] at hkeys
  refine ⟨?_, ?_, ?_⟩
  · intro e he
    have hrest_nodup : (rest.map CachedSearch.key).Nodup := hkeys.2.2
    rw [SearchCache.get, hcache,
      find_matches_of_mem rest hrest_nodup e he]
    rfl
  · rw [SearchCache.get, hcache]
    have hnot : e1.key ∉ rest.map CachedSearch.key := by
      intro hmem
      rcases List.mem_map.mp hmem with ⟨x, hx, hxk⟩
      exact hkeys.1.2 ⟨x, hx, hxk⟩
    rw [show (fun s => CachedSearch.matches s e1.query e1.safe
        e1.is_videos e1.page) = (fun s => CachedSearch.matches s
        e1.key.1 e1.key.2.1 e1.key.2.2.1 e1.key.2.2.2) from rfl,
      find_matches_of_not_mem rest e1.key hnot]
    rfl
  · rw [SearchCache.get, hcache]
    have hnot : e2.key ∉ rest.map CachedSearch.key := by
      intro hmem
      rcases List.mem_map.mp hmem with ⟨x, hx, hxk⟩
      exact hkeys.2.1 ⟨x, hx, hxk⟩
    rw [show (fun s => CachedSearch.matches s e2.query e2.safe
        e2.is_videos e2.page) = (fun s => CachedSearch.matches s
        e2.key.1 e2.key.2.1 e2.key.2.2.1 e2.key.2.2.2) from rfl,
      find_matches_of_not_mem rest e2.key hnot]
    rfl

/-- Witness for the amended C1 at `C = 2`: after inserting `q1`, `q2`,
`q3`, the entry `q3` is retrievable and `q1`, `q2` miss. -/
theorem C1_fifo_eviction_amended_witness :
    ((SearchCache.empty Nat 2).addEntries
        [⟨"q1", "strict", false, 0, [1]⟩, ⟨"q2", "strict", false, 0, [2]⟩,
         ⟨"q3", "strict", false, 0, [3]⟩]).get "q3" "strict" false 0 =
      some [3] ∧
    ((SearchCache.empty Nat 2).addEntries
        [⟨"q1", "strict", false, 0, [1]⟩, ⟨"q2", "strict", false, 0, [2]⟩,
         ⟨"q3", "strict", false, 0, [3]⟩]).get "q1" "strict" false 0 =
      none ∧
    ((SearchCache.empty Nat 2).addEntries
        [⟨"q1", "strict", false, 0, [1]⟩, ⟨"q2", "strict", false, 0, [2]⟩,
         ⟨"q3", "strict", false, 0, [3]⟩]).get "q2" "strict" false 0 =
      none := by
  have h := C1_fifo_eviction_amended 2 (by decide)
    ⟨"q1", "strict", false, 0, [1]⟩ ⟨"q2", "strict", false, 0, [2]⟩
    [⟨"q3", "strict", false, 0, [3]⟩] rfl (by decide)
  exact ⟨h.1 ⟨"q3", "strict", false, 0, [3]⟩ (List.Mem.head _),
    h.2.1, h.2.2⟩

/-- **C4.** `SearchCache.get` returns a stored result list only when all
four key fields match the stored entry exactly (no normalization); in
particular a cache holding one entry with page 0 misses the lookup that
differs only by asking page 1. -/
theorem C4_get_exact_match (α : Type) (c : SearchCache α)
    (q sf : String) (v : Bool) (p : Int) :
    (∀ rs, c.get q sf v p = some rs →
      ∃ e ∈ c.cache, e.query = q ∧ e.safe = sf ∧ e.is_videos = v ∧
        e.page = p ∧ e.results = rs) ∧
    (∀ (cap : Nat) (rs : List α),
      (SearchCache.mk [⟨q, sf, v, 0, rs⟩] cap).get q sf v 1 = none) := by
  constructor
  · intro rs hget
    rw [SearchCache.get] at hget
    rcases Option.map_eq_some'.mp hget with ⟨e, hfind, hres⟩
    have hmem := List.mem_of_find?_eq_some hfind
    have hpred := List.find?_some hfind
    rw [CachedSearch.matches_iff] at hpred
    have h4 : e.query = q ∧ e.safe = sf ∧ e.is_videos = v ∧ e.page = p := by
      simpa [CachedSearch.key, Prod.ext_iff] using hpred
    exact ⟨e, hmem, h4.1, h4.2.1, h4.2.2.1, h4.2.2.2, hres⟩
  · intro cap rs
    rw [SearchCache.get]
    rw [List.find?_cons_of_neg, List.find?_nil]
    · rfl
    · simp [CachedSearch.matches]

/-- **C2.** Credential rotation in `_make_request`: with pool
`[k1, k2]`, `k1`'s call answering 429 and `k2`'s answering 200, exactly
the two requests `k1` then `k2` are issued and `k2`'s response is
returned; and for every pool in which no credential's call answers 200,
the result is `none`. -/
theorem C2_credential_rotation (β : Type)
    (respond : String → Option (HttpResponse β)) (k1 k2 : String)
    (r1 r2 : HttpResponse β)
    (h1 : respond k1 = some r1) (h429 : r1.status_code = 429)
    (h2 : respond k2 = some r2) (h200 : r2.status_code = 200) :
    BraveClient.make_request respond [k1, k2] = ([k1, k2], some r2) ∧
    ∀ pool : List String,
      (∀ k ∈ pool, ∀ r, respond k = some r → r.status_code ≠ 200) →
      (BraveClient.make_request respond pool).2 = none := by
  constructor
  · simp [BraveClient.make_request, h1, h2, h429, h200]
  · intro pool hp
    induction pool with
    | nil => rfl
    | cons k ks ih =>
      have ihk := ih (fun k' hk' => hp k' (List.mem_cons_of_mem _ hk'))
      cases hr : respond k with
      | none => simp [BraveClient.make_request, hr, ihk]
      | some r =>
        have hne := hp k (List.mem_cons_self _ _) r hr
        simp [BraveClient.make_request, hr, hne, ihk]

/-- Witness for C2: a concrete two-key pool whose first key is
rate-limited and whose second succeeds. -/
theorem C2_credential_rotation_witness :
    BraveClient.make_request
      (fun k => if k = "k1" then some ⟨429, 0⟩
        else if k = "k2" then some (⟨200, 7⟩ : HttpResponse Nat)
        else none) ["k1", "k2"] = (["k1", "k2"], some ⟨200, 7⟩) :=
  (C2_credential_rotation Nat
    (fun k => if k = "k1" then some ⟨429, 0⟩
      else if k = "k2" then some (⟨200, 7⟩ : HttpResponse Nat)
      else none) "k1" "k2" ⟨429, 0⟩ ⟨200, 7⟩ rfl rfl rfl rfl).1

/-- **C3.** `get_infobox` dispatch order: the arithmetic strategy's
result wins when non-absent; otherwise the definition strategy's;
otherwise the query falls through to the Wikipedia strategy. The
quantification over both service oracles shows the later strategies
cannot influence an earlier hit, and the returned value is one
strategy's result unchanged (never a combination). -/
theorem C3_strategy_order
    (defRespond : String → Option (HttpResponse DefData))
    (wikiRespond : String → Option (HttpResponse WikiSummary))
    (web_results : List WebItem) (query : String) :
    (∀ r, solve_math query = some r →
      get_infobox defRespond wikiRespond web_results query = some r) ∧
    (solve_math query = none →
      ∀ r, get_definition defRespond query = some r →
        get_infobox defRespond wikiRespond web_results query = some r) ∧
    (solve_math query = none → get_definition defRespond query = none →
      get_infobox defRespond wikiRespond web_results query =
        get_wikipedia_summary wikiRespond web_results) := by
  refine ⟨?_, ?_, ?_⟩
  · intro r h
    simp [get_infobox, h]
  · intro h0 r h
    simp [get_infobox, h0, h]
  · intro h0 h1
    simp [get_infobox, h0, h1]

/-- Witness for C3 at the query `"2+2"`: the arithmetic strategy's
result is returned unchanged, for arbitrary (here everywhere-failing)
service oracles. -/
theorem C3_strategy_order_witness :
    get_infobox (fun _ => none) (fun _ => none) [] "2+2" =
      some { infotype := "calc", equ := some "2+2",
             result := some "4" } :=
  (C3_strategy_order (fun _ => none) (fun _ => none) [] "2+2").1
    { infotype := "calc", equ := some "2+2", result := some "4" }
    (by decide)

/-- Witness for C4: a cache holding exactly one entry with page 0 misses
the lookup that differs only by asking page 1. -/
theorem C4_get_exact_match_witness :
    (SearchCache.mk [⟨"a", "strict", false, 0, [7]⟩] 20).get
      "a" "strict" false 1 = none :=
  (C4_get_exact_match Nat
    (SearchCache.mk [⟨"a", "strict", false, 0, [7]⟩] 20)
    "a" "strict" false 1).2 20 [7]

/-- **C5.** When the first matching arithmetic template's extracted
expression fails evaluation (syntax error, division by zero, undefined
name, type or value error — all `none` in the evaluation model),
`_solve_math` returns `none`: no exception escapes and no later template
is tried. -/
theorem C5_eval_failure_yields_none (query : String) (equ : List Char)
    (h1 : matchTemplates maths_templates query.data = some equ)
    (h2 : evalArith (equCleaned (stripWs equ)) = none) :
    solve_math query = none := by
  simp [solve_math, h1, h2]

/-- Witness for C5 at the query `"2/0"`: the bare-expression template
matches and the division by zero fails evaluation. -/
theorem C5_eval_failure_yields_none_witness : solve_math "2/0" = none :=
  C5_eval_failure_yields_none "2/0" "2/0".data rfl rfl

/-- **C6 (counterexample).** The claim predicts that the upper-case
query `"2X3"` yields the calc infobox with result `"6"`, the same as
`"2x3"`. In fact `_solve_math "2X3"` is `none`: the template match is
case-insensitive, but `equ.replace("x", "*")` replaces only the
lower-case letter, so `"2X3"` reaches the evaluator unchanged and fails
with a syntax error. -/
theorem C6_upper_case_alias_counterexample : solve_math "2X3" = none := by
  rfl

/-- **C6 (amended).** Template matching is case-insensitive (the
upper-case `"2X3"` does match the bare-expression template), but the
multiplication-alias normalization is a literal lower-case replacement:
`"2x3"` yields the calc infobox `equ = "2*3", result = "6"`, while
`"2X3"` fails evaluation and the strategy returns absent. -/
theorem C6_alias_case_sensitivity :
    solve_math "2x3" = some { infotype := "calc",
                              equ := some "2*3",
                              result := some "6" } ∧
    matchTemplates maths_templates "2X3".data = some "2X3".data ∧
    solve_math "2X3" = none := by
  refine ⟨by decide, rfl, rfl⟩

/-- **C7 (counterexample).** The claim predicts that only a trailing
`" - Wikipedia"` suffix is stripped, preserving text before a
non-trailing occurrence. On the title
`"A - Wikipedia B - Wikipedia"` the code requests the summary of `"A"`
(`split` cuts at the first occurrence), not of the claim's
`"A_-_Wikipedia_B"`. -/
theorem C7_first_occurrence_cut_counterexample :
    wikipedia_requests (fun _ => (none : Option (HttpResponse WikiSummary)))
      [{ url := some "https://en.wikipedia.org/wiki/A",
         title := some "A - Wikipedia B - Wikipedia" }] = ["A"] ∧
    spec_trailing_title "A - Wikipedia B - Wikipedia" = "A_-_Wikipedia_B" ∧
    formatted_title "A - Wikipedia B - Wikipedia" = "A" := by
  refine ⟨rfl, rfl, rfl⟩

/-- **C7 (amended).** Every page title the Wikipedia strategy requests a
summary for comes from an item among the first 3 web results whose URL
contains `"wikipedia.org"`, and equals that item's title cut at the
*first* occurrence of `" - Wikipedia"` (everything from that occurrence
on is dropped, not only a trailing suffix), with spaces replaced by
underscores. -/
theorem C7_requested_title_amended
    (wikiRespond : String → Option (HttpResponse WikiSummary))
    (web_results : List WebItem) :
    (∀ t ∈ wikipedia_requests wikiRespond web_results,
      ∃ item ∈ web_results.take 3,
        containsSub "wikipedia.org".data (item.url.getD "").data = true ∧
        t = formatted_title (item.title.getD "")) ∧
    (∀ (pre post : List WebItem) (item : WebItem),
      web_results.take 3 = pre ++ item :: post →
      (∀ it ∈ pre,
        containsSub "wikipedia.org".data (it.url.getD "").data = false) →
      containsSub "wikipedia.org".data (item.url.getD "").data = true →
      (wikipedia_requests wikiRespond web_results).head? =
        some (formatted_title (item.title.getD ""))) ∧
    ∀ title : String, formatted_title title =
      ⟨strReplace [' '] ['_'] (beforeFirst wiki_sep title.data)⟩ := by
  refine ⟨?_, ?_, ?_⟩
  · have main : ∀ l : List WebItem,
        ∀ t ∈ wikipedia_requests_scan wikiRespond l,
        ∃ item ∈ l,
          containsSub "wikipedia.org".data (item.url.getD "").data = true ∧
          t = formatted_title (item.title.getD "") := by
      intro l
      induction l with
      | nil =>
        intro t ht
        simp [wikipedia_requests_scan] at ht
      | cons item rest ih =>
        intro t ht
        simp only [wikipedia_requests_scan] at ht
        split at ht
        · rename_i hw
          split at ht
          · rcases List.mem_cons.mp ht with rfl | hmem
            · exact ⟨item, List.mem_cons_self _ _, hw, rfl⟩
            · rcases ih t hmem with ⟨it, hm, ha, hb⟩
              exact ⟨it, List.mem_cons_of_mem _ hm, ha, hb⟩
          · split at ht
            · rcases List.mem_cons.mp ht with rfl | hmem
              · exact ⟨item, List.mem_cons_self _ _, hw, rfl⟩
              · rcases ih t hmem with ⟨it, hm, ha, hb⟩
                exact ⟨it, List.mem_cons_of_mem _ hm, ha, hb⟩
            · rcases List.mem_singleton.mp ht with rfl
              exact ⟨item, List.mem_cons_self _ _, hw, rfl⟩
        · rcases ih t ht with ⟨it, hm, ha, hb⟩
          exact ⟨it, List.mem_cons_of_mem _ hm, ha, hb⟩
    intro t ht
    exact main (web_results.take 3) t ht
  · intro pre post item hsplit hpre hitem
    show (wikipedia_requests_scan wikiRespond (web_results.take 3)).head? =
      some (formatted_title (item.title.getD ""))
    rw [hsplit, wikipedia_requests_scan_skip wikiRespond pre _ hpre,
      wikipedia_requests_scan_head wikiRespond item post hitem]
  · intro title
    rfl

/-- Witness for the amended C7: with the first item non-Wikipedia and
the second a Wikipedia hit, the first requested title comes from the
second item, cut at the first separator occurrence. -/
theorem C7_requested_title_amended_witness :
    (wikipedia_requests (fun _ => (none : Option (HttpResponse WikiSummary)))
      [{ url := some "https://example.com", title := some "E" },
       { url := some "https://en.wikipedia.org/wiki/A",
         title := some "A - Wikipedia" }]).head? = some "A" :=
  (C7_requested_title_amended
    (fun _ => (none : Option (HttpResponse WikiSummary)))
    [{ url := some "https://example.com", title := some "E" },
     { url := some "https://en.wikipedia.org/wiki/A",
       title := some "A - Wikipedia" }]).2.1
    [{ url := some "https://example.com", title := some "E" }] []
    { url := some "https://en.wikipedia.org/wiki/A",
      title := some "A - Wikipedia" } rfl (by decide) rfl

/-- **C8 (counterexample).** The claim predicts `"noresults"` also when
the upstream responds 200 with missing nested fields. In fact that case
fetches the empty list, which is not `None`, so the handler returns a
normal payload with empty results (and infobox `"null"`). -/
theorem C8_empty_fetch_not_noresults :
    (results_handler (SearchCache.empty WebItem 20) ["k"]
      (fun _ _ => some ⟨200, {}⟩) (fun _ => none) (fun _ => none)
      (some "q") none none none).1 =
      SearchResponse.payload FinalInfobox.nullLiteral [] := by
  rfl

/-- **C8 (amended).** A missing query yields the `"noquery"` sentinel;
`"noresults"` is returned exactly when the cache misses and the upstream
fetch returns `None` (every credential exhausted); a successful fetch —
including a 200 response with missing nested fields, which yields the
empty list — produces a normal payload carrying the fetched list. -/
theorem C8_sentinels_amended (cache : SearchCache WebItem)
    (api_keys : List String)
    (braveRespond : BraveRequest → String → Option (HttpResponse BraveJson))
    (defRespond : String → Option (HttpResponse DefData))
    (wikiRespond : String → Option (HttpResponse WikiSummary))
    (safe_arg videos_arg page_arg : Option String) :
    ((results_handler cache api_keys braveRespond defRespond wikiRespond
        none safe_arg videos_arg page_arg).1 = SearchResponse.noquery) ∧
    (∀ query : String,
      cache.get query (safe_arg.getD "strict") (videos_arg == some "true")
        (page_of_arg page_arg) = none →
      BraveClient.get_web_results api_keys braveRespond query
        (safe_arg.getD "strict") (videos_arg == some "true")
        (page_of_arg page_arg) = none →
      (results_handler cache api_keys braveRespond defRespond wikiRespond
        (some query) safe_arg videos_arg page_arg).1 =
        SearchResponse.noresults) ∧
    (∀ (query : String) (rs : List WebItem),
      cache.get query (safe_arg.getD "strict") (videos_arg == some "true")
        (page_of_arg page_arg) = none →
      BraveClient.get_web_results api_keys braveRespond query
        (safe_arg.getD "strict") (videos_arg == some "true")
        (page_of_arg page_arg) = some rs →
      (results_handler cache api_keys braveRespond defRespond wikiRespond
        (some query) safe_arg videos_arg page_arg).1 =
        SearchResponse.payload
          (final_infobox defRespond wikiRespond (videos_arg == some "true")
            rs query) rs) := by
  refine ⟨rfl, ?_, ?_⟩
  · intro query hmiss hfetch
    simp [results_handler, hmiss, hfetch]
  · intro query rs hmiss hfetch
    simp [results_handler, hmiss, hfetch]

/-- Witness for the amended C8: an empty cache and a key pool whose only
call raises give the `"noresults"` sentinel. -/
theorem C8_sentinels_amended_witness :
    (results_handler (SearchCache.empty WebItem 20) ["k"]
      (fun _ _ => none) (fun _ => none) (fun _ => none) (some "q")
      none none none).1 = SearchResponse.noresults :=
  (C8_sentinels_amended (SearchCache.empty WebItem 20) ["k"]
    (fun _ _ => none) (fun _ => none) (fun _ => none)
    none none none).2.1 "q" rfl rfl

/-- **C10.** Every normal payload of a `videos=true` search carries the
`"null"` infobox literal: the handler guards the resolver behind
`not is_videos`, so the resolver (whatever its two oracles would answer)
is never consulted for video searches. -/
theorem C10_videos_payload_null_infobox (cache : SearchCache WebItem)
    (api_keys : List String)
    (braveRespond : BraveRequest → String → Option (HttpResponse BraveJson))
    (defRespond : String → Option (HttpResponse DefData))
    (wikiRespond : String → Option (HttpResponse WikiSummary))
    (q safe_arg page_arg : Option String)
    (fb : FinalInfobox) (rs : List WebItem)
    (h : (results_handler cache api_keys braveRespond defRespond
        wikiRespond q safe_arg (some "true") page_arg).1 =
      SearchResponse.payload fb rs) :
    fb = FinalInfobox.nullLiteral := by
  cases q with
  | none => simp [results_handler] at h
  | some query =>
    simp only [results_handler] at h
    have hvid : ((some "true" : Option String) == some "true") = true := rfl
    rw [hvid] at h
    cases hc : cache.get query (safe_arg.getD "strict") true
        (page_of_arg page_arg) with
    | some cached =>
      rw [hc] at h
      simp only [final_infobox, if_pos rfl] at h
      have := (SearchResponse.payload.injEq _ _ _ _).mp h
      exact this.1.symm
    | none =>
      rw [hc] at h
      cases hf : BraveClient.get_web_results api_keys braveRespond query
          (safe_arg.getD "strict") true (page_of_arg page_arg) with
      | some fetched =>
        rw [hf] at h
        simp only [final_infobox, if_pos rfl] at h
        have := (SearchResponse.payload.injEq _ _ _ _).mp h
        exact this.1.symm
      | none =>
        rw [hf] at h
        simp at h

/-- Witness for C10: a concrete video search whose payload carries the
`"null"` infobox literal. -/
theorem C10_videos_payload_null_infobox_witness :
    (results_handler (SearchCache.empty WebItem 20) ["k"]
      (fun _ _ => some ⟨200,
        { results := some [{ url := some "u", title := some "t" }] }⟩)
      (fun _ => none) (fun _ => none) (some "cats") none (some "true")
      none).1 =
      SearchResponse.payload FinalInfobox.nullLiteral
        [{ url := some "u", title := some "t" }] ∧
    FinalInfobox.nullLiteral = FinalInfobox.nullLiteral :=
  ⟨rfl, C10_videos_payload_null_infobox (SearchCache.empty WebItem 20)
    ["k"]
    (fun _ _ => some ⟨200,
      { results := some [{ url := some "u", title := some "t" }] }⟩)
    (fun _ => none) (fun _ => none) (some "cats") none none
    FinalInfobox.nullLiteral [{ url := some "u", title := some "t" }]
    rfl⟩

end Claims

end Nilch
